import Mathlib

/-!
# A verification development for the native `StyleSheet` runtime
(`packages/react-native-css-interop/src/runtime/native/stylesheet.ts`)

The TypeScript module maintains process-wide registries (named styles,
animation keyframes, dev warnings, four CSS-variable scopes, a metadata side
table keyed by object identity, and a subscriber set) and exposes
`register`, `create`, `__subscribe`, `__reset`, the tagger `tagStyles`, and
the read-time `useVariables`.

Embedding conventions:
* JS `Map`s and plain objects are association lists.  `aset` models
  `Map.set` / object key assignment (replace in place, else append);
  `alookup` models `Map.get` / property access; object spread `{...a, ...b}`
  is `spread2 a b`.
* Object identity of a renderable style value (`styles.style`) is modelled
  by an opaque `Nat` id carried on the descriptor.  The metadata side table
  (`styleMetaMap`, a `WeakMap` keyed by identity) is an association list
  keyed by those ids.
* The array returned by `tagStyles` for a style array is a freshly created
  object (`styles.map(...)`), so its identity is distinct from every other
  key of the side table; its (sole possible) side-table entry is therefore
  represented inline, as the `Option StyleMeta` component of
  `TaggedProp.arr`, rather than under a fabricated key.
* Subscriber callbacks are opaque: they are modelled by `Nat` ids, and a
  broadcast is modelled by returning the list of ids invoked (the iteration
  order of the JS `Set`, i.e. insertion order).
* Optional descriptor fields are `Option`; payloads the module never
  inspects (media conditions, pseudo classes, container queries,
  transitions, props, warnings, keyframe bodies) are opaque `Nat`s or lists
  of them.
-/

namespace Nativewind

/-- Association-list lookup: JS `Map.get` / object property access
(first match wins; JS maps keep keys unique). -/
def alookup {α β : Type} [DecidableEq α] : List (α × β) → α → Option β
  | [], _ => none
  | p :: rest, k => if p.1 = k then some p.2 else alookup rest k

/-- Association-list update: JS `Map.set` / object key assignment — replace
the first matching key in place, otherwise append at the end (insertion
order is preserved, as in JS). -/
def aset {α β : Type} [DecidableEq α] : List (α × β) → α → β → List (α × β)
  | [], k, v => [(k, v)]
  | p :: rest, k, v => if p.1 = k then (k, v) :: rest else p :: aset rest k v

/-- The keys of an association list are pairwise distinct (every list that
models a JS object or `Map` satisfies this). -/
def keysNodup {α β : Type} (m : List (α × β)) : Prop :=
  (m.map Prod.fst).Nodup

instance {α β : Type} [DecidableEq α] (m : List (α × β)) :
    Decidable (keysNodup m) := by
  unfold keysNodup; infer_instance

/-- A flat variable scope: a JS object mapping variable names to values. -/
abbrev Vars := List (String × Int)

/-- JS object spread `{...a, ...b}`: entries of `b` written over `a`,
later writes winning. -/
def spread2 (a b : Vars) : Vars :=
  b.foldl (fun acc p => aset acc p.1 p.2) a

/-- First-defined choice on options (strict version of `orElse`). -/
def ofirst {α : Type} : Option α → Option α → Option α
  | some x, _ => some x
  | none, b => b

@[simp] theorem ofirst_some {α : Type} (x : α) (b : Option α) :
    ofirst (some x) b = some x := rfl

@[simp] theorem ofirst_none {α : Type} (b : Option α) :
    ofirst none b = b := rfl

theorem alookup_aset_self {α β : Type} [DecidableEq α]
    (m : List (α × β)) (k : α) (v : β) :
    alookup (aset m k v) k = some v := by
  induction m with
  | nil => simp [aset, alookup]
  | cons p rest ih =>
    by_cases h : p.1 = k
    · simp [aset, alookup, h]
    · simp [aset, alookup, h, ih]

theorem alookup_aset_ne {α β : Type} [DecidableEq α]
    (m : List (α × β)) (k k' : α) (v : β) (h : k' ≠ k) :
    alookup (aset m k v) k' = alookup m k' := by
  have hkk : ¬ k = k' := fun hh => h hh.symm
  induction m with
  | nil => simp [aset, alookup, hkk]
  | cons p rest ih =>
    by_cases hp : p.1 = k
    · have hp' : ¬ p.1 = k' := fun hh => hkk (hp.symm.trans hh)
      simp [aset, alookup, hp, hkk, hp']
    · by_cases hp' : p.1 = k'
      · simp [aset, alookup, hp, hp', h]
      · simp [aset, alookup, hp, hp', ih]

theorem alookup_eq_none_of_not_mem {α β : Type} [DecidableEq α]
    (m : List (α × β)) (k : α) (h : k ∉ m.map Prod.fst) :
    alookup m k = none := by
  induction m with
  | nil => rfl
  | cons p rest ih =>
    simp only [List.map_cons, List.mem_cons] at h
    push_neg at h
    have h1 : ¬ p.1 = k := fun hh => h.1 hh.symm
    simp [alookup, h1, ih h.2]

theorem keys_aset_subset {α β : Type} [DecidableEq α]
    (m : List (α × β)) (k : α) (v : β) (x : α)
    (hx : x ∈ (aset m k v).map Prod.fst) :
    x ∈ m.map Prod.fst ∨ x = k := by
  induction m with
  | nil =>
    right
    simpa [aset] using hx
  | cons p rest ih =>
    by_cases hp : p.1 = k
    · rw [aset, if_pos hp] at hx
      simp only [List.map_cons, List.mem_cons] at hx ⊢
      rcases hx with h1 | h2
      · exact Or.inr h1
      · exact Or.inl (Or.inr h2)
    · rw [aset, if_neg hp] at hx
      simp only [List.map_cons, List.mem_cons] at hx ⊢
      rcases hx with h1 | h2
      · exact Or.inl (Or.inl h1)
      · rcases ih h2 with h3 | h4
        · exact Or.inl (Or.inr h3)
        · exact Or.inr h4

theorem keysNodup_aset {α β : Type} [DecidableEq α]
    (m : List (α × β)) (k : α) (v : β) (h : keysNodup m) :
    keysNodup (aset m k v) := by
  induction m with
  | nil => simp [aset, keysNodup]
  | cons p rest ih =>
    unfold keysNodup at h ⊢
    simp only [List.map_cons, List.nodup_cons] at h
    by_cases hp : p.1 = k
    · rw [aset, if_pos hp]
      simp only [List.map_cons, List.nodup_cons]
      exact ⟨hp ▸ h.1, h.2⟩
    · rw [aset, if_neg hp]
      simp only [List.map_cons, List.nodup_cons]
      have hrest := ih h.2
      unfold keysNodup at hrest
      refine ⟨?_, hrest⟩
      intro hmem
      rcases keys_aset_subset rest k v p.1 hmem with h1 | h2
      · exact h.1 h1
      · exact hp h2

theorem alookup_spread2 (a b : Vars) (hb : keysNodup b) (k : String) :
    alookup (spread2 a b) k = ofirst (alookup b k) (alookup a k) := by
  induction b generalizing a with
  | nil => simp [spread2, alookup]
  | cons p rest ih =>
    unfold keysNodup at hb
    simp only [List.map_cons, List.nodup_cons] at hb
    have step : spread2 a (p :: rest) = spread2 (aset a p.1 p.2) rest := rfl
    rw [step]
    by_cases hk : k = p.1
    · have hmem : k ∉ rest.map Prod.fst := by rw [hk]; exact hb.1
      rw [ih (aset a p.1 p.2) hb.2]
      rw [alookup_eq_none_of_not_mem rest k hmem]
      rw [ofirst_none, hk, alookup_aset_self]
      simp [alookup]
    · have hk' : ¬ p.1 = k := fun hh => hk hh.symm
      rw [ih (aset a p.1 p.2) hb.2]
      rw [alookup_aset_ne a p.1 k p.2 hk]
      simp [alookup, hk']

theorem keysNodup_spread2 (a b : Vars) (ha : keysNodup a) :
    keysNodup (spread2 a b) := by
  induction b generalizing a with
  | nil => exact ha
  | cons p rest ih =>
    have step : spread2 a (p :: rest) = spread2 (aset a p.1 p.2) rest := rfl
    rw [step]
    exact ih _ (keysNodup_aset a p.1 p.2 ha)

/-- One entry of a descriptor's `animations.name` list: a parsed
animation-name reference `{ type, value }` (`type === "none"` marks the
`none` keyword; otherwise `value` is the referenced name). -/
structure AnimationNameRef where
  type : String
  value : String
deriving DecidableEq

/-- The animations descriptor attached to a style.  The tagger copies it to
the metadata wholesale and consults only its optional `name` list;
`payload` stands for all the remaining (uninspected) animation fields. -/
structure AnimationsDescriptor where
  name : Option (List AnimationNameRef) := none
  payload : Nat := 0
deriving DecidableEq

/-- An animation keyframe definition stored in the animation map.  This
module consults only its layout-requirement flag
(`animationMap.get(name)?.requiresLayout`); `payload` stands for the
keyframe data itself. -/
structure Keyframes where
  requiresLayout : Bool := false
  payload : Nat := 0
deriving DecidableEq

/-- The `container` field of a descriptor: `names` plus an optional
`type`. -/
structure ContainerIn where
  names : List String := []
  type : Option String := none
deriving DecidableEq

/-- The normalized `container` record placed on the metadata: `type`
defaulted to `"normal"` when absent on the input. -/
structure ContainerMeta where
  names : List String
  type : String
deriving DecidableEq

/-- A compiled style descriptor (`ExtractedStyle`) as consumed by
`tagStyles`.  `style` is the identity of the underlying renderable style
value; the remaining fields are the optional dynamic-behavior annotations.
Payload types the module never inspects are opaque. -/
structure ExtractedStyle where
  style : Nat
  isDynamic : Bool := false
  «variables» : Option Vars := none
  media : Option (List Nat) := none
  pseudoClasses : Option Nat := none
  animations : Option AnimationsDescriptor := none
  container : Option ContainerIn := none
  containerQuery : Option Nat := none
  transition : Option Nat := none
  requiresLayout : Bool := false
  prop : Option Nat := none
  warnings : Option (List Nat) := none
deriving DecidableEq

/-- The out-of-band metadata record (`StyleMeta`) built by the tagger: the
subset of dynamic-relevant fields actually present.  The empty record `{}`
is the array sentinel. -/
structure StyleMeta where
  «variables» : Option Vars := none
  media : Option (List Nat) := none
  pseudoClasses : Option Nat := none
  animations : Option AnimationsDescriptor := none
  container : Option ContainerMeta := none
  containerQuery : Option Nat := none
  transition : Option Nat := none
  requiresLayout : Option Bool := none
  prop : Option Nat := none
deriving DecidableEq

/-- The renderable value returned by `tagStyles`: either a single leaf
style value (by identity) or the freshly created array of leaf values.  The
fresh array's own side-table entry (the sentinel) is carried inline as
`arrayMeta`, since its identity is distinct from every existing key. -/
inductive TaggedProp where
  | single (id : Nat)
  | arr (ids : List Nat) (arrayMeta : Option StyleMeta)
deriving DecidableEq

/-- The side-table entry attached to the value returned by `tagStyles` when
that value is a freshly created array (`none` for leaf values, which are
keyed in the shared side table instead). -/
def TaggedProp.arraySentinel : TaggedProp → Option StyleMeta
  | .single _ => none
  | .arr _ m => m

/-- The whole mutable module state of `stylesheet.ts`: the registries
imported from `globals` (`globalStyles`, `animationMap`, `warnings`,
`warned`, `styleMetaMap`, the `rem`/`vw`/`vh` unit trackers and the
`colorScheme` tracker), the four module-level variable scopes, and the
subscriber set (in insertion order, callbacks as opaque ids). -/
structure SSState where
  globalStyles : List (String × TaggedProp) := []
  animationMap : List (String × Keyframes) := []
  warnings : List (String × List Nat) := []
  warned : List String := []
  styleMetaMap : List (Nat × StyleMeta) := []
  rootVariables : Vars := []
  rootDarkVariables : Vars := []
  defaultVariables : Vars := []
  defaultDarkVariables : Vars := []
  vw : Int := 0
  vh : Int := 0
  rem : Int := 0
  colorScheme : String := ""
  subscriptions : List Nat := []
deriving DecidableEq

/-- The name under which an animation-name reference is looked up:
`nameObj.type === "none" ? "none" : nameObj.value`. -/
def animNameKey (r : AnimationNameRef) : String :=
  if r.type = "none" then "none" else r.value

/-- `styles.animations.name?.some((nameObj) => animationMap.get(name)?.requiresLayout)`:
false when `name` is absent; a name missing from the animation map
contributes false (optional chaining yields `undefined`, which is falsy). -/
def animationsRequireLayout (am : List (String × Keyframes))
    (a : AnimationsDescriptor) : Bool :=
  match a.name with
  | none => false
  | some refs =>
    refs.any fun r =>
      match alookup am (animNameKey r) with
      | some kf => kf.requiresLayout
      | none => false

/-- Step of the single-descriptor body of `tagStyles`: the
`if (styles.variables)` block (stylesheet.ts lines 138-141). -/
def tagStepVariables (s : ExtractedStyle) (acc : Bool × StyleMeta) :
    Bool × StyleMeta :=
  match s.«variables» with
  | some v => (true, { acc.2 with «variables» := some v })
  | none => acc

/-- Step: the `if (Array.isArray(styles.media) && styles.media.length > 0)`
block (lines 143-146). -/
def tagStepMedia (s : ExtractedStyle) (acc : Bool × StyleMeta) :
    Bool × StyleMeta :=
  match s.media with
  | some ms => if 0 < ms.length then (true, { acc.2 with media := some ms }) else acc
  | none => acc

/-- Step: the `if (styles.pseudoClasses)` block (lines 148-151). -/
def tagStepPseudoClasses (s : ExtractedStyle) (acc : Bool × StyleMeta) :
    Bool × StyleMeta :=
  match s.pseudoClasses with
  | some pc => (true, { acc.2 with pseudoClasses := some pc })
  | none => acc

/-- Step: the `if (styles.animations)` block (lines 153-165): copy the
animations descriptor, then derive `requiresLayout` from the animation-map
lookup of every referenced name. -/
def tagStepAnimations (am : List (String × Keyframes)) (s : ExtractedStyle)
    (acc : Bool × StyleMeta) : Bool × StyleMeta :=
  match s.animations with
  | some a =>
    if animationsRequireLayout am a then
      (true, { acc.2 with animations := some a, requiresLayout := some true })
    else
      (true, { acc.2 with animations := some a })
  | none => acc

/-- Step: the `if (styles.container)` block (lines 167-173): `type`
defaults to `"normal"`. -/
def tagStepContainer (s : ExtractedStyle) (acc : Bool × StyleMeta) :
    Bool × StyleMeta :=
  match s.container with
  | some c => (true, { acc.2 with container := some ⟨c.names, c.type.getD "normal"⟩ })
  | none => acc

/-- Step: the `if (styles.containerQuery)` block (lines 175-178). -/
def tagStepContainerQuery (s : ExtractedStyle) (acc : Bool × StyleMeta) :
    Bool × StyleMeta :=
  match s.containerQuery with
  | some cq => (true, { acc.2 with containerQuery := some cq })
  | none => acc

/-- Step: the `if (styles.transition)` block (lines 180-183). -/
def tagStepTransition (s : ExtractedStyle) (acc : Bool × StyleMeta) :
    Bool × StyleMeta :=
  match s.transition with
  | some t => (true, { acc.2 with transition := some t })
  | none => acc

/-- Step: the `if (styles.requiresLayout)` block (lines 184-187): copies
the (truthy, hence `true`) explicit flag. -/
def tagStepRequiresLayout (s : ExtractedStyle) (acc : Bool × StyleMeta) :
    Bool × StyleMeta :=
  if s.requiresLayout then (true, { acc.2 with requiresLayout := some true }) else acc

/-- Step: the `if (styles.prop)` block (lines 189-192). -/
def tagStepProp (s : ExtractedStyle) (acc : Bool × StyleMeta) :
    Bool × StyleMeta :=
  match s.prop with
  | some pr => (true, { acc.2 with prop := some pr })
  | none => acc

/-- The single-descriptor body of `tagStyles` (stylesheet.ts lines
130-192): starting from `hasMeta = styles.isDynamic` (lines 134-136) and an
empty `meta`, the `if` blocks run in source order. -/
def tagMetaOf (am : List (String × Keyframes)) (s : ExtractedStyle) :
    Bool × StyleMeta :=
  tagStepProp s
    (tagStepRequiresLayout s
      (tagStepTransition s
        (tagStepContainerQuery s
          (tagStepContainer s
            (tagStepAnimations am s
              (tagStepPseudoClasses s
                (tagStepMedia s
                  (tagStepVariables s (s.isDynamic, {})))))))))

/-- `tagStyles` on a single descriptor: in non-production builds
(`dev = true`) a `warnings` field is installed into the warnings registry
keyed by `name`; then, if any dynamic-relevant field was seen, the metadata
record is installed keyed by the identity of the renderable value; the
renderable value itself (`styles.style`) is returned. -/
def tagStylesSingle (dev : Bool) (name : String) (s : ExtractedStyle)
    (st : SSState) : Nat × SSState :=
  let acc := tagMetaOf st.animationMap s
  let st :=
    if dev then
      match s.warnings with
      | some w => { st with warnings := aset st.warnings name w }
      | none => st
    else st
  let st :=
    if acc.1 then { st with styleMetaMap := aset st.styleMetaMap s.style acc.2 }
    else st
  (s.style, st)

/-- Result of tagging a style array: the leaf ids of the new array, the
`didTag` flag, and the updated state. -/
structure ArrTagResult where
  ids : List Nat
  didTag : Bool
  state : SSState
deriving DecidableEq

/-- The array branch of `tagStyles`: each element is tagged in order, and
`didTag ||= styleMetaMap.has(s.style)` is evaluated right after tagging the
element. -/
def tagStylesArr (dev : Bool) (name : String) :
    List ExtractedStyle → SSState → ArrTagResult
  | [], st => ⟨[], false, st⟩
  | s :: rest, st =>
    let r1 := tagStylesSingle dev name s st
    let d1 := (alookup r1.2.styleMetaMap s.style).isSome
    let r2 := tagStylesArr dev name rest r1.2
    ⟨r1.1 :: r2.ids, d1 || r2.didTag, r2.state⟩

/-- Input of `tagStyles`: `ExtractedStyle | ExtractedStyle[]`. -/
inductive StylesInput where
  | single (s : ExtractedStyle)
  | arr (xs : List ExtractedStyle)
deriving DecidableEq

/-- `tagStyles(name, styles)` (stylesheet.ts lines 113-204).  For an array,
the elements are tagged in order and, if `didTag`, the freshly created
array receives the empty metadata record `{}` as its own side-table entry
(carried inline on `TaggedProp.arr`). -/
def tagStyles (dev : Bool) (name : String) (input : StylesInput)
    (st : SSState) : TaggedProp × SSState :=
  match input with
  | .arr xs =>
    let r := tagStylesArr dev name xs st
    (.arr r.ids (if r.didTag then some {} else none), r.state)
  | .single s =>
    let r := tagStylesSingle dev name s st
    (.single r.1, r.2)

/-- The non-empty-`media` value actually copied: an empty media condition
list is treated as absent. -/
def mediaVal (s : ExtractedStyle) : Option (List Nat) :=
  match s.media with
  | some ms => if 0 < ms.length then some ms else none
  | none => none

/-- Whether the animation-map lookup warrants the derived `requiresLayout`
flag for this descriptor (false when no `animations` field is present). -/
def animGuard (am : List (String × Keyframes)) (s : ExtractedStyle) : Bool :=
  match s.animations with
  | some a => animationsRequireLayout am a
  | none => false

/-- Following the spec's words: a descriptor has "at least one dynamic
field" when any of `isDynamic`, `variables`, non-empty `media`,
`pseudoClasses`, `animations`, `container`, `containerQuery`, `transition`,
`requiresLayout`, `prop` is set. -/
def specDynamicRelevant (s : ExtractedStyle) : Bool :=
  s.isDynamic || s.«variables».isSome || (mediaVal s).isSome ||
    s.pseudoClasses.isSome || s.animations.isSome || s.container.isSome ||
    s.containerQuery.isSome || s.transition.isSome || s.requiresLayout ||
    s.prop.isSome

/-- Following the spec's words: the metadata record contains "exactly the
fields present on the input", an empty `media` list treated as absent,
`container.type` defaulted to `"normal"`, and `requiresLayout` present
(with value `true`) exactly when the animation lookup warrants it or the
descriptor carries an explicit `requiresLayout`. -/
def specMetaOf (am : List (String × Keyframes)) (s : ExtractedStyle) :
    StyleMeta where
  «variables» := s.«variables»
  media := mediaVal s
  pseudoClasses := s.pseudoClasses
  animations := s.animations
  container := s.container.map fun c => ⟨c.names, c.type.getD "normal"⟩
  containerQuery := s.containerQuery
  transition := s.transition
  requiresLayout := if animGuard am s || s.requiresLayout then some true else none
  prop := s.prop

@[simp] theorem ofirst_none_right {α : Type} (a : Option α) :
    ofirst a none = a := by
  cases a <;> rfl

theorem tagStepVariables_eq (s : ExtractedStyle) (acc : Bool × StyleMeta) :
    tagStepVariables s acc =
      (acc.1 || s.«variables».isSome,
       { acc.2 with «variables» := ofirst s.«variables» acc.2.«variables» }) := by
  cases h : s.«variables» <;> simp [tagStepVariables, h, ofirst]

theorem tagStepMedia_eq (s : ExtractedStyle) (acc : Bool × StyleMeta) :
    tagStepMedia s acc =
      (acc.1 || (mediaVal s).isSome,
       { acc.2 with media := ofirst (mediaVal s) acc.2.media }) := by
  cases h : s.media with
  | none => simp [tagStepMedia, mediaVal, h, ofirst]
  | some ms =>
    by_cases hl : 0 < ms.length <;>
      simp [tagStepMedia, mediaVal, h, hl, ofirst]

theorem tagStepPseudoClasses_eq (s : ExtractedStyle) (acc : Bool × StyleMeta) :
    tagStepPseudoClasses s acc =
      (acc.1 || s.pseudoClasses.isSome,
       { acc.2 with pseudoClasses := ofirst s.pseudoClasses acc.2.pseudoClasses }) := by
  cases h : s.pseudoClasses <;> simp [tagStepPseudoClasses, h, ofirst]

theorem tagStepAnimations_eq (am : List (String × Keyframes))
    (s : ExtractedStyle) (acc : Bool × StyleMeta) :
    tagStepAnimations am s acc =
      (acc.1 || s.animations.isSome,
       { acc.2 with
          animations := ofirst s.animations acc.2.animations,
          requiresLayout :=
            if animGuard am s then some true else acc.2.requiresLayout }) := by
  cases h : s.animations with
  | none => simp [tagStepAnimations, animGuard, h, ofirst]
  | some a =>
    by_cases hg : animationsRequireLayout am a <;>
      simp [tagStepAnimations, animGuard, h, hg, ofirst]

theorem tagStepContainer_eq (s : ExtractedStyle) (acc : Bool × StyleMeta) :
    tagStepContainer s acc =
      (acc.1 || s.container.isSome,
       { acc.2 with
          container :=
            ofirst (s.container.map fun c => ⟨c.names, c.type.getD "normal"⟩)
              acc.2.container }) := by
  cases h : s.container <;> simp [tagStepContainer, h, ofirst]

theorem tagStepContainerQuery_eq (s : ExtractedStyle) (acc : Bool × StyleMeta) :
    tagStepContainerQuery s acc =
      (acc.1 || s.containerQuery.isSome,
       { acc.2 with containerQuery := ofirst s.containerQuery acc.2.containerQuery }) := by
  cases h : s.containerQuery <;> simp [tagStepContainerQuery, h, ofirst]

theorem tagStepTransition_eq (s : ExtractedStyle) (acc : Bool × StyleMeta) :
    tagStepTransition s acc =
      (acc.1 || s.transition.isSome,
       { acc.2 with transition := ofirst s.transition acc.2.transition }) := by
  cases h : s.transition <;> simp [tagStepTransition, h, ofirst]

theorem tagStepRequiresLayout_eq (s : ExtractedStyle) (acc : Bool × StyleMeta) :
    tagStepRequiresLayout s acc =
      (acc.1 || s.requiresLayout,
       { acc.2 with
          requiresLayout :=
            if s.requiresLayout then some true else acc.2.requiresLayout }) := by
  by_cases h : s.requiresLayout <;> simp [tagStepRequiresLayout, h]

theorem tagStepProp_eq (s : ExtractedStyle) (acc : Bool × StyleMeta) :
    tagStepProp s acc =
      (acc.1 || s.prop.isSome,
       { acc.2 with prop := ofirst s.prop acc.2.prop }) := by
  cases h : s.prop <;> simp [tagStepProp, h, ofirst]

/-- Bridge: the sequential single-descriptor tagging chain computes exactly
the spec-side presence flag and metadata record. -/
theorem tagMetaOf_eq (am : List (String × Keyframes)) (s : ExtractedStyle) :
    tagMetaOf am s = (specDynamicRelevant s, specMetaOf am s) := by
  rw [tagMetaOf, tagStepVariables_eq, tagStepMedia_eq, tagStepPseudoClasses_eq,
    tagStepAnimations_eq, tagStepContainer_eq, tagStepContainerQuery_eq,
    tagStepTransition_eq, tagStepRequiresLayout_eq, tagStepProp_eq]
  simp only [specDynamicRelevant, specMetaOf, Bool.or_assoc]
  by_cases hg : animGuard am s = true <;>
    by_cases hr : s.requiresLayout = true <;>
      simp [hg, hr]

/-- `StyleSheetRegisterOptions`: the six independently-optional fields of
`register`.  `keyframes` and `declarations` are JS objects, listed in
`Object.entries` order. -/
structure RegisterOptions where
  keyframes : Option (List (String × Keyframes)) := none
  declarations : Option (List (String × StylesInput)) := none
  defaultVariables : Option Vars := none
  defaultDarkVariables : Option Vars := none
  rootVariables : Option Vars := none
  rootDarkVariables : Option Vars := none
deriving DecidableEq

/-- Phase 1 of `register` (lines 61-65): install every keyframes entry into
the animation map, overwriting on name collision. -/
def registerKeyframes (o : RegisterOptions) (st : SSState) : SSState :=
  match o.keyframes with
  | some kfs =>
    kfs.foldl (fun s p => { s with animationMap := aset s.animationMap p.1 p.2 }) st
  | none => st

/-- Phase 2 of `register` (lines 67-71): tag each declaration and install
the result into the named-style map, overwriting on name collision. -/
def registerDeclarations (dev : Bool) (o : RegisterOptions) (st : SSState) :
    SSState :=
  match o.declarations with
  | some decls =>
    decls.foldl
      (fun s p =>
        let r := tagStyles dev p.1 p.2 s
        { r.2 with globalStyles := aset r.2.globalStyles p.1 r.1 })
      st
  | none => st

/-- Phases 3-6 of `register` (lines 73-92): the four variable-scope
updates, in source order.  Note which operand is the *input* field of this
call (`options.…`) and which is the current module-level scope. -/
def registerVariables (o : RegisterOptions) (st : SSState) : SSState :=
  let st :=
    match o.defaultVariables with
    | some dv => { st with defaultVariables := dv }
    | none => st
  let st :=
    match o.defaultDarkVariables with
    | some ddv =>
      { st with defaultDarkVariables := spread2 (o.defaultVariables.getD []) ddv }
    | none => st
  let st :=
    match o.rootVariables with
    | some rv => { st with rootVariables := spread2 rv st.defaultVariables }
    | none => st
  let st :=
    match o.rootDarkVariables with
    | some rdv =>
      { st with
         rootDarkVariables :=
           spread2 (spread2 (o.rootVariables.getD []) rdv) st.defaultDarkVariables }
    | none => st
  st

/-- `StyleSheet.register` (lines 60-97): keyframes, then declarations, then
the variable scopes, then a synchronous broadcast to every current
subscriber (returned as the list of invoked callback ids, in iteration
order). -/
def register (dev : Bool) (o : RegisterOptions) (st : SSState) :
    SSState × List Nat :=
  let st := registerKeyframes o st
  let st := registerDeclarations dev o st
  let st := registerVariables o st
  (st, st.subscriptions)

/-- `StyleSheet.create` (lines 98-110): tag each entry into a fresh
`namedStyles` record (the named-style map is untouched), broadcast, and
return the record.  Result: the returned mapping, the new state, and the
invoked callback ids. -/
def create (dev : Bool) (styles : List (String × ExtractedStyle))
    (st : SSState) : List (String × TaggedProp) × SSState × List Nat :=
  let r :=
    styles.foldl
      (fun (acc : List (String × TaggedProp) × SSState) p =>
        let t := tagStyles dev p.1 (.single p.2) acc.2
        (aset acc.1 p.1 t.1, t.2))
      ([], st)
  (r.1, r.2, r.2.subscriptions)

/-- `subscriptions.add` (JS `Set.add`): append if not already present
(function identity). -/
def subsAdd (subs : List Nat) (c : Nat) : List Nat :=
  if c ∈ subs then subs else subs ++ [c]

/-- `subscriptions.delete` (JS `Set.delete`): remove the callback. -/
def subsDelete (subs : List Nat) (c : Nat) : List Nat :=
  subs.filter fun x => x ≠ c

/-- `StyleSheet.__subscribe` (lines 40-45): add the callback to the
subscriber set. -/
def subscribe (c : Nat) (st : SSState) : SSState :=
  { st with subscriptions := subsAdd st.subscriptions c }

/-- The closure returned by `__subscribe`: delete the callback from the
subscriber set. -/
def unsubscribe (c : Nat) (st : SSState) : SSState :=
  { st with subscriptions := subsDelete st.subscriptions c }

/-- A dimension source (`Dimensions.get`-style), consulted by `__reset` for
the viewport-unit trackers. -/
structure DimensionsSource where
  width : Int
  height : Int
deriving DecidableEq

/-- Modelled from the spec: `rem.reset()` reinitializes the rem unit
tracker to its default value (the tracker implementation lives in
`globals.ts`, outside the provided source; spec §4.2 only requires
reinitialization). -/
def remDefault : Int := 14

/-- `StyleSheet.__reset` (lines 46-59).  `platformDims`/`platformScheme`
stand for the ambient live platform sources (`Dimensions`, `Appearance`),
used when no override is given.  The tracker internals (`rem.reset()`,
`vw.reset(dimensions)`, `vh.reset(dimensions)`,
`colorScheme.reset(appearance)`) are modelled from the spec: the
viewport-unit trackers are reinitialized from the given dimension source,
the color-scheme tracker from the given appearance source.  Note, mirroring
the source exactly: `styleMetaMap` and the subscriber set are *not*
touched. -/
def resetSS (platformDims : DimensionsSource) (platformScheme : String)
    (dims : Option DimensionsSource) (appearance : Option String)
    (st : SSState) : SSState :=
  let d := dims.getD platformDims
  { st with
     globalStyles := []
     animationMap := []
     warnings := []
     warned := []
     rem := remDefault
     vw := d.width
     vh := d.height
     colorScheme := appearance.getD platformScheme
     rootVariables := []
     rootDarkVariables := []
     defaultVariables := []
     defaultDarkVariables := [] }

/-- `useVariables` (lines 211-230): the layered variable resolution.
`inherited` is the ambient context value (`none` models the root sentinel:
a `null` context at the top of the tree); `scheme` is the current
appearance (`Appearance.getColorScheme()`), injected. -/
def useVariables (st : SSState) (inherited : Option Vars) (scheme : String) :
    Vars :=
  match inherited with
  | none =>
    if scheme = "light" then st.rootVariables else st.rootDarkVariables
  | some vars =>
    if scheme = "light" then spread2 vars st.defaultVariables
    else spread2 vars st.defaultDarkVariables

/-- A registry-mutating API call that ends in a broadcast: `register` or
`create`. -/
inductive Op where
  | registerCall (o : RegisterOptions)
  | createCall (styles : List (String × ExtractedStyle))
deriving DecidableEq

/-- Apply one broadcasting call; result: new state and invoked callback
ids. -/
def applyOp (dev : Bool) (st : SSState) : Op → SSState × List Nat
  | .registerCall o => register dev o st
  | .createCall styles =>
    let r := create dev styles st
    (r.2.1, r.2.2)

/-- Run a sequence of broadcasting calls; result: final state and the list
of broadcasts (each the list of invoked callback ids). -/
def runOps (dev : Bool) (st : SSState) : List Op → SSState × List (List Nat)
  | [] => (st, [])
  | op :: rest =>
    let r := applyOp dev st op
    let rr := runOps dev r.1 rest
    (rr.1, r.2 :: rr.2)

/-- Fold a sequence of `register` calls (ignoring the broadcasts). -/
def registerAll (dev : Bool) (st : SSState) (os : List RegisterOptions) :
    SSState :=
  os.foldl (fun s o => (register dev o s).1) st

theorem aset_eq_append {α β : Type} [DecidableEq α]
    (m : List (α × β)) (k : α) (v : β) (h : k ∉ m.map Prod.fst) :
    aset m k v = m ++ [(k, v)] := by
  induction m with
  | nil => rfl
  | cons p rest ih =>
    simp only [List.map_cons, List.mem_cons] at h
    push_neg at h
    have h1 : ¬ p.1 = k := fun hh => h.1 hh.symm
    simp [aset, h1, ih h.2]

/-- The state projections `tagStyles` never writes (everything except
`globalStyles`, `warnings` and `styleMetaMap`; `globalStyles` is handled
separately since the declarations phase of `register` does write it). -/
def BaseFrame (a b : SSState) : Prop :=
  a.animationMap = b.animationMap ∧ a.warned = b.warned ∧
  a.rootVariables = b.rootVariables ∧ a.rootDarkVariables = b.rootDarkVariables ∧
  a.defaultVariables = b.defaultVariables ∧
  a.defaultDarkVariables = b.defaultDarkVariables ∧
  a.vw = b.vw ∧ a.vh = b.vh ∧ a.rem = b.rem ∧
  a.colorScheme = b.colorScheme ∧ a.subscriptions = b.subscriptions

theorem baseFrame_refl (a : SSState) : BaseFrame a a :=
  ⟨rfl, rfl, rfl, rfl, rfl, rfl, rfl, rfl, rfl, rfl, rfl⟩

theorem baseFrame_trans {a b c : SSState} (h1 : BaseFrame a b)
    (h2 : BaseFrame b c) : BaseFrame a c := by
  obtain ⟨x1, x2, x3, x4, x5, x6, x7, x8, x9, x10, x11⟩ := h1
  obtain ⟨y1, y2, y3, y4, y5, y6, y7, y8, y9, y10, y11⟩ := h2
  exact ⟨x1.trans y1, x2.trans y2, x3.trans y3, x4.trans y4, x5.trans y5,
    x6.trans y6, x7.trans y7, x8.trans y8, x9.trans y9, x10.trans y10,
    x11.trans y11⟩

theorem tagStylesSingle_fst (dev : Bool) (name : String) (s : ExtractedStyle)
    (st : SSState) : (tagStylesSingle dev name s st).1 = s.style := rfl

/-- What the single-descriptor tagger does to the metadata side table: an
entry for the descriptor's renderable value is installed exactly when a
dynamic-relevant field is present, and it is the spec-side record. -/
theorem tagStylesSingle_metaMap (dev : Bool) (name : String)
    (s : ExtractedStyle) (st : SSState) :
    (tagStylesSingle dev name s st).2.styleMetaMap =
      (if specDynamicRelevant s = true then
        aset st.styleMetaMap s.style (specMetaOf st.animationMap s)
      else st.styleMetaMap) := by
  unfold tagStylesSingle
  dsimp only
  rw [tagMetaOf_eq]
  repeat' split
  all_goals simp_all

theorem tagStylesSingle_base (dev : Bool) (name : String) (s : ExtractedStyle)
    (st : SSState) : BaseFrame (tagStylesSingle dev name s st).2 st := by
  unfold tagStylesSingle BaseFrame
  dsimp only
  repeat' split
  all_goals simp_all

theorem tagStylesSingle_globalStyles (dev : Bool) (name : String)
    (s : ExtractedStyle) (st : SSState) :
    (tagStylesSingle dev name s st).2.globalStyles = st.globalStyles := by
  unfold tagStylesSingle
  dsimp only
  repeat' split
  all_goals simp_all

theorem tagStylesSingle_warnings_of_prod (name : String) (s : ExtractedStyle)
    (st : SSState) :
    (tagStylesSingle false name s st).2.warnings = st.warnings := by
  unfold tagStylesSingle
  dsimp only
  repeat' split
  all_goals simp_all

theorem tagStylesArr_ids (dev : Bool) (name : String)
    (xs : List ExtractedStyle) (st : SSState) :
    (tagStylesArr dev name xs st).ids = xs.map ExtractedStyle.style := by
  induction xs generalizing st with
  | nil => rfl
  | cons s rest ih =>
    simp [tagStylesArr, tagStylesSingle_fst, ih]

theorem tagStylesArr_base (dev : Bool) (name : String)
    (xs : List ExtractedStyle) (st : SSState) :
    BaseFrame (tagStylesArr dev name xs st).state st := by
  induction xs generalizing st with
  | nil => exact baseFrame_refl st
  | cons s rest ih =>
    exact baseFrame_trans (ih (tagStylesSingle dev name s st).2)
      (tagStylesSingle_base dev name s st)

theorem tagStylesArr_globalStyles (dev : Bool) (name : String)
    (xs : List ExtractedStyle) (st : SSState) :
    (tagStylesArr dev name xs st).state.globalStyles = st.globalStyles := by
  induction xs generalizing st with
  | nil => rfl
  | cons s rest ih =>
    rw [tagStylesArr]
    dsimp only
    rw [ih, tagStylesSingle_globalStyles]

theorem tagStylesArr_warnings_of_prod (name : String)
    (xs : List ExtractedStyle) (st : SSState) :
    (tagStylesArr false name xs st).state.warnings = st.warnings := by
  induction xs generalizing st with
  | nil => rfl
  | cons s rest ih =>
    rw [tagStylesArr]
    dsimp only
    rw [ih, tagStylesSingle_warnings_of_prod]

theorem tagStyles_base (dev : Bool) (name : String) (input : StylesInput)
    (st : SSState) : BaseFrame (tagStyles dev name input st).2 st := by
  cases input with
  | single s => exact tagStylesSingle_base dev name s st
  | arr xs => exact tagStylesArr_base dev name xs st

theorem tagStyles_globalStyles (dev : Bool) (name : String)
    (input : StylesInput) (st : SSState) :
    (tagStyles dev name input st).2.globalStyles = st.globalStyles := by
  cases input with
  | single s => exact tagStylesSingle_globalStyles dev name s st
  | arr xs => exact tagStylesArr_globalStyles dev name xs st

/-- Tagging only ever adds side-table entries: membership is monotone
through the single-descriptor tagger. -/
theorem metaMap_mono_single (dev : Bool) (name : String) (s : ExtractedStyle)
    (st : SSState) (k : Nat)
    (h : (alookup st.styleMetaMap k).isSome = true) :
    (alookup (tagStylesSingle dev name s st).2.styleMetaMap k).isSome = true := by
  rw [tagStylesSingle_metaMap]
  split
  · by_cases hk : k = s.style
    · subst hk
      rw [alookup_aset_self]
      rfl
    · rw [alookup_aset_ne _ _ _ _ hk]
      exact h
  · exact h

/-- Membership is monotone through array tagging. -/
theorem metaMap_mono_arr (dev : Bool) (name : String)
    (xs : List ExtractedStyle) (st : SSState) (k : Nat)
    (h : (alookup st.styleMetaMap k).isSome = true) :
    (alookup (tagStylesArr dev name xs st).state.styleMetaMap k).isSome = true := by
  induction xs generalizing st with
  | nil => exact h
  | cons s rest ih =>
    exact ih (tagStylesSingle dev name s st).2 (metaMap_mono_single dev name s st k h)

/-- If the single-descriptor tagger's output table has an entry for `k`,
then either the input table already had it, or the output table has an
entry for the descriptor's own renderable value (the only key the tagger
can add). -/
theorem tagSingle_metaMap_back (dev : Bool) (name : String)
    (u : ExtractedStyle) (st : SSState) (k : Nat)
    (h : (alookup (tagStylesSingle dev name u st).2.styleMetaMap k).isSome = true) :
    (alookup st.styleMetaMap k).isSome = true ∨
      (alookup (tagStylesSingle dev name u st).2.styleMetaMap u.style).isSome = true := by
  rw [tagStylesSingle_metaMap] at h ⊢
  by_cases hd : specDynamicRelevant u = true
  · rw [if_pos hd] at h ⊢
    by_cases hk : k = u.style
    · right
      rw [alookup_aset_self]
      rfl
    · left
      rw [alookup_aset_ne _ _ _ _ hk] at h
      exact h
  · rw [if_neg hd] at h
    exact Or.inl h

/-- If array tagging's output table has an entry for `k`, then either the
input table already had it, or some element's check set `didTag`. -/
theorem tagArr_metaMap_back (dev : Bool) (name : String)
    (xs : List ExtractedStyle) (st : SSState) (k : Nat)
    (h : (alookup (tagStylesArr dev name xs st).state.styleMetaMap k).isSome = true) :
    (alookup st.styleMetaMap k).isSome = true ∨
      (tagStylesArr dev name xs st).didTag = true := by
  induction xs generalizing st with
  | nil => exact Or.inl h
  | cons u rest ih =>
    rw [tagStylesArr] at h ⊢
    dsimp only at h ⊢
    rcases ih (tagStylesSingle dev name u st).2 h with h1 | h2
    · rcases tagSingle_metaMap_back dev name u st k h1 with h3 | h4
      · exact Or.inl h3
      · right
        simp [h4]
    · right
      simp [h2]

/-- The `didTag` flag of array tagging is set exactly when some element's
renderable value carries a side-table entry once the array has been
tagged. -/
theorem tagArr_didTag_iff (dev : Bool) (name : String)
    (xs : List ExtractedStyle) (st : SSState) :
    (tagStylesArr dev name xs st).didTag = true ↔
      ∃ s ∈ xs,
        (alookup (tagStylesArr dev name xs st).state.styleMetaMap s.style).isSome
          = true := by
  induction xs generalizing st with
  | nil => simp [tagStylesArr]
  | cons u rest ih =>
    rw [tagStylesArr]
    dsimp only
    constructor
    · intro h
      rcases Bool.or_eq_true_iff.mp h with h1 | h2
      · exact ⟨u, List.mem_cons_self u rest,
          metaMap_mono_arr dev name rest _ u.style h1⟩
      · rcases (ih _).mp h2 with ⟨t, ht, hmem⟩
        exact ⟨t, List.mem_cons_of_mem u ht, hmem⟩
    · rintro ⟨t, ht, hmem⟩
      rcases List.mem_cons.mp ht with rfl | htr
      · rcases tagArr_metaMap_back dev name rest _ t.style hmem with h1 | h2
        · simp [h1]
        · simp [h2]
      · have := (ih _).mpr ⟨t, htr, hmem⟩
        simp [this]

theorem foldl_animMap (l : List (String × Keyframes)) (st : SSState) :
    l.foldl (fun s p => { s with animationMap := aset s.animationMap p.1 p.2 }) st
      = { st with animationMap := l.foldl (fun m p => aset m p.1 p.2) st.animationMap } := by
  induction l generalizing st with
  | nil => rfl
  | cons p rest ih =>
    rw [List.foldl_cons, List.foldl_cons, ih]

/-- Phase 1 characterized: only the animation map changes, receiving every
keyframes entry in order. -/
theorem registerKeyframes_eq (o : RegisterOptions) (st : SSState) :
    registerKeyframes o st =
      { st with
         animationMap :=
           (o.keyframes.getD []).foldl (fun m p => aset m p.1 p.2) st.animationMap } := by
  unfold registerKeyframes
  cases o.keyframes with
  | none => rfl
  | some kfs => exact foldl_animMap kfs st

theorem baseFrame_globalStyles_update {a : SSState}
    (g : List (String × TaggedProp)) :
    BaseFrame { a with globalStyles := g } a :=
  ⟨rfl, rfl, rfl, rfl, rfl, rfl, rfl, rfl, rfl, rfl, rfl⟩

theorem declFold_base (dev : Bool) (decls : List (String × StylesInput))
    (st : SSState) :
    BaseFrame
      (decls.foldl
        (fun s p =>
          let r := tagStyles dev p.1 p.2 s
          { r.2 with globalStyles := aset r.2.globalStyles p.1 r.1 })
        st) st := by
  induction decls generalizing st with
  | nil => exact baseFrame_refl st
  | cons p rest ih =>
    rw [List.foldl_cons]
    exact baseFrame_trans (ih _)
      (baseFrame_trans (baseFrame_globalStyles_update _)
        (tagStyles_base dev p.1 p.2 st))

theorem registerDeclarations_base (dev : Bool) (o : RegisterOptions)
    (st : SSState) : BaseFrame (registerDeclarations dev o st) st := by
  unfold registerDeclarations
  cases o.declarations with
  | none => exact baseFrame_refl st
  | some decls => exact declFold_base dev decls st

theorem registerVariables_defaultVariables (o : RegisterOptions) (st : SSState) :
    (registerVariables o st).defaultVariables =
      o.defaultVariables.getD st.defaultVariables := by
  unfold registerVariables
  cases o.defaultVariables <;> cases o.defaultDarkVariables <;>
    cases o.rootVariables <;> cases o.rootDarkVariables <;> simp

theorem registerVariables_defaultDark (o : RegisterOptions) (st : SSState) :
    (registerVariables o st).defaultDarkVariables =
      (match o.defaultDarkVariables with
        | some ddv => spread2 (o.defaultVariables.getD []) ddv
        | none => st.defaultDarkVariables) := by
  unfold registerVariables
  cases o.defaultVariables <;> cases o.defaultDarkVariables <;>
    cases o.rootVariables <;> cases o.rootDarkVariables <;> simp

theorem registerVariables_root (o : RegisterOptions) (st : SSState) :
    (registerVariables o st).rootVariables =
      (match o.rootVariables with
        | some rv => spread2 rv (o.defaultVariables.getD st.defaultVariables)
        | none => st.rootVariables) := by
  unfold registerVariables
  cases o.defaultVariables <;> cases o.defaultDarkVariables <;>
    cases o.rootVariables <;> cases o.rootDarkVariables <;> simp

theorem registerVariables_rootDark (o : RegisterOptions) (st : SSState) :
    (registerVariables o st).rootDarkVariables =
      (match o.rootDarkVariables with
        | some rdv =>
          spread2 (spread2 (o.rootVariables.getD []) rdv)
            (match o.defaultDarkVariables with
              | some ddv => spread2 (o.defaultVariables.getD []) ddv
              | none => st.defaultDarkVariables)
        | none => st.rootDarkVariables) := by
  unfold registerVariables
  cases o.defaultVariables <;> cases o.defaultDarkVariables <;>
    cases o.rootVariables <;> cases o.rootDarkVariables <;> simp

theorem registerVariables_rest (o : RegisterOptions) (st : SSState) :
    (registerVariables o st).globalStyles = st.globalStyles ∧
    (registerVariables o st).animationMap = st.animationMap ∧
    (registerVariables o st).warnings = st.warnings ∧
    (registerVariables o st).warned = st.warned ∧
    (registerVariables o st).styleMetaMap = st.styleMetaMap ∧
    (registerVariables o st).vw = st.vw ∧
    (registerVariables o st).vh = st.vh ∧
    (registerVariables o st).rem = st.rem ∧
    (registerVariables o st).colorScheme = st.colorScheme ∧
    (registerVariables o st).subscriptions = st.subscriptions := by
  unfold registerVariables
  cases o.defaultVariables <;> cases o.defaultDarkVariables <;>
    cases o.rootVariables <;> cases o.rootDarkVariables <;>
      exact ⟨rfl, rfl, rfl, rfl, rfl, rfl, rfl, rfl, rfl, rfl⟩

/-- `register` leaves the subscriber set unchanged, and its terminal
broadcast invokes exactly the current subscribers. -/
theorem register_subs (dev : Bool) (o : RegisterOptions) (st : SSState) :
    (register dev o st).1.subscriptions = st.subscriptions ∧
    (register dev o st).2 = st.subscriptions := by
  unfold register
  dsimp only
  have h1 : (registerKeyframes o st).subscriptions = st.subscriptions := by
    rw [registerKeyframes_eq]
  have h2 := (registerDeclarations_base dev o (registerKeyframes o st)).2.2.2.2.2.2.2.2.2.2
  have h3 := (registerVariables_rest o
    (registerDeclarations dev o (registerKeyframes o st))).2.2.2.2.2.2.2.2.2
  rw [h3, h2, h1]
  exact ⟨rfl, rfl⟩

/-- The four variable scopes of the state after `register`. -/
theorem register_scopes (dev : Bool) (o : RegisterOptions) (st : SSState) :
    (register dev o st).1.defaultVariables =
        o.defaultVariables.getD st.defaultVariables ∧
    (register dev o st).1.defaultDarkVariables =
      (match o.defaultDarkVariables with
        | some ddv => spread2 (o.defaultVariables.getD []) ddv
        | none => st.defaultDarkVariables) ∧
    (register dev o st).1.rootVariables =
      (match o.rootVariables with
        | some rv => spread2 rv (o.defaultVariables.getD st.defaultVariables)
        | none => st.rootVariables) ∧
    (register dev o st).1.rootDarkVariables =
      (match o.rootDarkVariables with
        | some rdv =>
          spread2 (spread2 (o.rootVariables.getD []) rdv)
            (match o.defaultDarkVariables with
              | some ddv => spread2 (o.defaultVariables.getD []) ddv
              | none => st.defaultDarkVariables)
        | none => st.rootDarkVariables) := by
  unfold register
  dsimp only
  set st1 := registerKeyframes o st with hst1
  set st2 := registerDeclarations dev o st1 with hst2
  have hb := registerDeclarations_base dev o st1
  have e1 : st1.defaultVariables = st.defaultVariables := by
    rw [hst1, registerKeyframes_eq]
  have e2 : st1.defaultDarkVariables = st.defaultDarkVariables := by
    rw [hst1, registerKeyframes_eq]
  have e3 : st1.rootVariables = st.rootVariables := by
    rw [hst1, registerKeyframes_eq]
  have e4 : st1.rootDarkVariables = st.rootDarkVariables := by
    rw [hst1, registerKeyframes_eq]
  have f1 : st2.defaultVariables = st.defaultVariables := hb.2.2.2.2.1.trans e1
  have f2 : st2.defaultDarkVariables = st.defaultDarkVariables :=
    hb.2.2.2.2.2.1.trans e2
  have f3 : st2.rootVariables = st.rootVariables := hb.2.2.1.trans e3
  have f4 : st2.rootDarkVariables = st.rootDarkVariables := hb.2.2.2.1.trans e4
  refine ⟨?_, ?_, ?_, ?_⟩
  · rw [registerVariables_defaultVariables, f1]
  · rw [registerVariables_defaultDark, f2]
  · rw [registerVariables_root, f1, f3]
  · rw [registerVariables_rootDark, f2, f4]

/-- The `create` fold: the state evolves exactly as tagging each entry in
order, the accumulator receives each tagged value keyed by name. -/
def createFold (dev : Bool) (styles : List (String × ExtractedStyle))
    (acc0 : List (String × TaggedProp)) (st : SSState) :
    List (String × TaggedProp) × SSState :=
  styles.foldl
    (fun (acc : List (String × TaggedProp) × SSState) p =>
      let t := tagStyles dev p.1 (.single p.2) acc.2
      (aset acc.1 p.1 t.1, t.2))
    (acc0, st)

theorem create_eq_createFold (dev : Bool)
    (styles : List (String × ExtractedStyle)) (st : SSState) :
    create dev styles st =
      ((createFold dev styles [] st).1, (createFold dev styles [] st).2,
        (createFold dev styles [] st).2.subscriptions) := rfl

theorem tagStyles_single_fst (dev : Bool) (name : String) (s : ExtractedStyle)
    (st : SSState) :
    (tagStyles dev name (.single s) st).1 = TaggedProp.single s.style := rfl

theorem tagStyles_single_snd (dev : Bool) (name : String) (s : ExtractedStyle)
    (st : SSState) :
    (tagStyles dev name (.single s) st).2 = (tagStylesSingle dev name s st).2 := rfl

theorem createFold_base (dev : Bool) (styles : List (String × ExtractedStyle))
    (acc0 : List (String × TaggedProp)) (st : SSState) :
    BaseFrame (createFold dev styles acc0 st).2 st := by
  induction styles generalizing acc0 st with
  | nil => exact baseFrame_refl st
  | cons p rest ih =>
    exact baseFrame_trans (ih _ _) (tagStylesSingle_base dev p.1 p.2 st)

theorem createFold_globalStyles (dev : Bool)
    (styles : List (String × ExtractedStyle))
    (acc0 : List (String × TaggedProp)) (st : SSState) :
    (createFold dev styles acc0 st).2.globalStyles = st.globalStyles := by
  induction styles generalizing acc0 st with
  | nil => rfl
  | cons p rest ih =>
    rw [createFold, List.foldl_cons]
    dsimp only
    rw [← createFold]
    rw [ih _ _, tagStyles_single_snd, tagStylesSingle_globalStyles]

theorem createFold_warnings_of_prod (styles : List (String × ExtractedStyle))
    (acc0 : List (String × TaggedProp)) (st : SSState) :
    (createFold false styles acc0 st).2.warnings = st.warnings := by
  induction styles generalizing acc0 st with
  | nil => rfl
  | cons p rest ih =>
    rw [createFold, List.foldl_cons]
    dsimp only
    rw [← createFold]
    rw [ih _ _, tagStyles_single_snd, tagStylesSingle_warnings_of_prod]

theorem createFold_result (dev : Bool) (styles : List (String × ExtractedStyle))
    (acc0 : List (String × TaggedProp)) (st : SSState)
    (hfresh : ∀ p ∈ styles, p.1 ∉ acc0.map Prod.fst)
    (hn : keysNodup styles) :
    (createFold dev styles acc0 st).1 =
      acc0 ++ styles.map (fun p => (p.1, TaggedProp.single p.2.style)) := by
  induction styles generalizing acc0 st with
  | nil => simp [createFold]
  | cons p rest ih =>
    unfold keysNodup at hn
    simp only [List.map_cons, List.nodup_cons] at hn
    rw [createFold, List.foldl_cons]
    dsimp only
    rw [← createFold]
    have hp : p.1 ∉ acc0.map Prod.fst := hfresh p (List.mem_cons_self p rest)
    have hstep : aset acc0 p.1 (TaggedProp.single p.2.style) =
        acc0 ++ [(p.1, TaggedProp.single p.2.style)] :=
      aset_eq_append acc0 p.1 _ hp
    rw [tagStyles_single_fst, hstep]
    rw [ih (acc0 ++ [(p.1, TaggedProp.single p.2.style)]) _ ?_ hn.2]
    · simp
    · intro q hq
      simp only [List.map_append, List.mem_append, List.map_cons]
      push_neg
      refine ⟨hfresh q (List.mem_cons_of_mem p hq), ?_⟩
      simp only [List.map_nil, List.mem_singleton]
      intro hqe
      exact hn.1 (hqe ▸ List.mem_map_of_mem Prod.fst hq)

theorem tagStyles_arr_fst (dev : Bool) (name : String)
    (xs : List ExtractedStyle) (st : SSState) :
    (tagStyles dev name (.arr xs) st).1 =
      TaggedProp.arr (tagStylesArr dev name xs st).ids
        (if (tagStylesArr dev name xs st).didTag then some {} else none) := rfl

theorem tagStyles_arr_snd (dev : Bool) (name : String)
    (xs : List ExtractedStyle) (st : SSState) :
    (tagStyles dev name (.arr xs) st).2 = (tagStylesArr dev name xs st).state := rfl

/-- The derived-layout disjunction, spelled as the spec does: some
referenced animation name (a `"none"`-typed reference standing for the
literal name `"none"`) resolves in the animation map to a definition
requiring layout. -/
theorem animationsRequireLayout_iff (am : List (String × Keyframes))
    (a : AnimationsDescriptor) :
    animationsRequireLayout am a = true ↔
      ∃ r ∈ a.name.getD [], ∃ kf,
        alookup am (animNameKey r) = some kf ∧ kf.requiresLayout = true := by
  cases hn : a.name with
  | none => simp [animationsRequireLayout, hn]
  | some refs =>
    simp only [animationsRequireLayout, hn, List.any_eq_true, Option.getD_some]
    constructor
    · rintro ⟨r, hr, hmatch⟩
      cases hl : alookup am (animNameKey r) with
      | none => rw [hl] at hmatch; simp at hmatch
      | some kf =>
        rw [hl] at hmatch
        exact ⟨r, hr, kf, hl, hmatch⟩
    · rintro ⟨r, hr, kf, hl, hkf⟩
      exact ⟨r, hr, by rw [hl]; exact hkf⟩

theorem mem_subsAdd_self (l : List Nat) (c : Nat) : c ∈ subsAdd l c := by
  by_cases h : c ∈ l <;> simp [subsAdd, h]

theorem mem_subsAdd_of_mem (l : List Nat) (c x : Nat) (h : x ∈ l) :
    x ∈ subsAdd l c := by
  by_cases hc : c ∈ l <;> simp [subsAdd, hc, h]

theorem mem_subsDelete (l : List Nat) (c x : Nat) :
    x ∈ subsDelete l c ↔ x ∈ l ∧ x ≠ c := by
  simp [subsDelete, List.mem_filter]

theorem subsDelete_idem (l : List Nat) (c : Nat) :
    subsDelete (subsDelete l c) c = subsDelete l c := by
  simp only [subsDelete]
  induction l with
  | nil => rfl
  | cons x rest ih =>
    by_cases hx : x = c
    · simp [List.filter_cons, hx, ih]
    · simp [List.filter_cons, hx, ih]

theorem subsAdd_idem (l : List Nat) (c : Nat) :
    subsAdd (subsAdd l c) c = subsAdd l c := by
  have h := mem_subsAdd_self l c
  simp only [subsAdd] at h ⊢
  rw [if_pos h]

/-- `create` also leaves the subscriber set unchanged and broadcasts to
exactly the current subscribers. -/
theorem create_subs (dev : Bool) (styles : List (String × ExtractedStyle))
    (st : SSState) :
    (create dev styles st).2.1.subscriptions = st.subscriptions ∧
    (create dev styles st).2.2 = st.subscriptions := by
  rw [create_eq_createFold]
  have h := (createFold_base dev styles [] st).2.2.2.2.2.2.2.2.2.2
  exact ⟨h, h⟩

theorem applyOp_subs (dev : Bool) (st : SSState) (op : Op) :
    (applyOp dev st op).1.subscriptions = st.subscriptions ∧
    (applyOp dev st op).2 = st.subscriptions := by
  cases op with
  | registerCall o => exact register_subs dev o st
  | createCall styles => exact create_subs dev styles st

theorem runOps_subs (dev : Bool) (st : SSState) (ops : List Op) :
    (runOps dev st ops).1.subscriptions = st.subscriptions ∧
    ∀ l ∈ (runOps dev st ops).2, l = st.subscriptions := by
  induction ops generalizing st with
  | nil => exact ⟨rfl, by simp [runOps]⟩
  | cons op rest ih =>
    have h1 := applyOp_subs dev st op
    have h2 := ih (applyOp dev st op).1
    rw [runOps]
    dsimp only
    refine ⟨h2.1.trans h1.1, ?_⟩
    intro l hl
    rcases List.mem_cons.mp hl with rfl | hlr
    · exact h1.2
    · exact (h2.2 l hlr).trans h1.1

theorem not_mem_subsDelete_self (l : List Nat) (c : Nat) :
    c ∉ subsDelete l c := by
  rw [mem_subsDelete]
  rintro ⟨_, h⟩
  exact h rfl

/-- `register({ defaultVariables: {a:1}, defaultDarkVariables: {b:2} })` —
the first call of the spec's worked example. -/
def regEx1 : RegisterOptions :=
  { defaultVariables := some [("a", 1)], defaultDarkVariables := some [("b", 2)] }

/-- `register({ rootVariables: {c:3} })` — the second call of the spec's
worked example. -/
def regEx2 : RegisterOptions := { rootVariables := some [("c", 3)] }

/-- A state holding the animation `"spin"` with `requiresLayout: true`,
obtained by registering its keyframes. -/
def spinState : SSState :=
  (register false { keyframes := some [("spin", { requiresLayout := true })] } {}).1

/-- A descriptor with `animations.name = [{type:"custom", value:"spin"}]`. -/
def spinStyle : ExtractedStyle :=
  { style := 7,
    animations := some { name := some [{ type := "custom", value := "spin" }] } }

/-- A minimal dynamic descriptor (`isDynamic` set). -/
def dynStyle : ExtractedStyle := { style := 5, isDynamic := true }

/-- C1: for a single (non-array) style descriptor, tagging installs a
metadata entry keyed by the identity of its renderable value if and only if
at least one dynamic-relevant field is set (`specDynamicRelevant`); in that
case the installed entry is exactly `specMetaOf`: the fields present on the
input, with an empty `media` list treated as absent, `container.type`
defaulted to `"normal"`, and the derived `requiresLayout` when animation
lookup warrants it.  A descriptor with no dynamic fields leaves the side
table untouched. -/
theorem C1_single_descriptor_metadata (dev : Bool) (name : String)
    (s : ExtractedStyle) (st : SSState) :
    (specDynamicRelevant s = true →
      (tagStyles dev name (.single s) st).2.styleMetaMap =
        aset st.styleMetaMap s.style (specMetaOf st.animationMap s)) ∧
    (specDynamicRelevant s = false →
      (tagStyles dev name (.single s) st).2.styleMetaMap = st.styleMetaMap) := by
  constructor <;> intro h <;>
    rw [tagStyles_single_snd, tagStylesSingle_metaMap, h] <;> simp

/-- Witness for C1 at concrete inputs: a descriptor with a dynamic field
(`isDynamic`) installs its entry; a purely static one installs nothing. -/
theorem C1_witness :
    (tagStyles false "w" (.single { style := 1, isDynamic := true })
        ({} : SSState)).2.styleMetaMap =
      aset ({} : SSState).styleMetaMap 1
        (specMetaOf ({} : SSState).animationMap { style := 1, isDynamic := true }) ∧
    (tagStyles false "w" (.single { style := 2 }) ({} : SSState)).2.styleMetaMap =
      ({} : SSState).styleMetaMap :=
  ⟨(C1_single_descriptor_metadata false "w" { style := 1, isDynamic := true } {}).1
      (by decide),
   (C1_single_descriptor_metadata false "w" { style := 2 } {}).2 (by decide)⟩

/-- C3: tagging a style array attaches the empty metadata sentinel to the
freshly returned array iff at least one of its elements carries a metadata
entry (keyed by the element's renderable value) once the array has been
tagged, and any sentinel the array receives is the empty record.  (The
tagger never removes entries, so an element "received" an entry exactly
when it has one afterwards.) -/
theorem C3_array_sentinel (dev : Bool) (name : String)
    (xs : List ExtractedStyle) (st : SSState) :
    ((tagStyles dev name (.arr xs) st).1.arraySentinel = some {} ↔
      ∃ s ∈ xs,
        (alookup (tagStyles dev name (.arr xs) st).2.styleMetaMap s.style).isSome
          = true) ∧
    ∀ m, (tagStyles dev name (.arr xs) st).1.arraySentinel = some m → m = {} := by
  rw [tagStyles_arr_fst, tagStyles_arr_snd]
  constructor
  · by_cases hd : (tagStylesArr dev name xs st).didTag = true
    · simp only [TaggedProp.arraySentinel, hd, if_true]
      exact Iff.intro (fun _ => (tagArr_didTag_iff dev name xs st).mp hd)
        (fun _ => trivial)
    · have hd' : (tagStylesArr dev name xs st).didTag = false :=
        Bool.not_eq_true _ ▸ by simpa using hd
      simp only [TaggedProp.arraySentinel, hd', if_false]
      constructor
      · intro hcontra
        exact absurd hcontra (by simp)
      · intro hex
        exact absurd ((tagArr_didTag_iff dev name xs st).mpr hex) hd
  · intro m hm
    by_cases hd : (tagStylesArr dev name xs st).didTag = true
    · simp only [TaggedProp.arraySentinel, hd, if_true, Option.some.injEq] at hm
      exact hm.symm
    · simp [TaggedProp.arraySentinel, hd] at hm

/-- C4: for a descriptor carrying an `animations` field (and no explicit
`requiresLayout`, whose independent contribution is covered by C1), the
installed metadata has `requiresLayout = some true` exactly when some
referenced animation name — a `"none"`-typed reference standing for the
literal name `"none"` — resolves in the animation map to a definition
requiring layout; names absent from the map contribute nothing and raise no
error (the lookup is total).  In particular, after registering `"spin"`
with `requiresLayout: true`, tagging a descriptor referencing `"spin"`
yields `requiresLayout === true`. -/
theorem C4_animation_requires_layout (dev : Bool) (name : String)
    (s : ExtractedStyle) (st : SSState) (a : AnimationsDescriptor)
    (ha : s.animations = some a) (hrl : s.requiresLayout = false) :
    (∃ m,
      alookup (tagStyles dev name (.single s) st).2.styleMetaMap s.style = some m ∧
      (m.requiresLayout = some true ↔
        ∃ r ∈ a.name.getD [], ∃ kf,
          alookup st.animationMap (animNameKey r) = some kf ∧
            kf.requiresLayout = true)) ∧
    (alookup (tagStyles false "sp" (.single spinStyle) spinState).2.styleMetaMap
        7).map StyleMeta.requiresLayout = some (some true) := by
  have hdyn : specDynamicRelevant s = true := by
    simp [specDynamicRelevant, ha]
  refine ⟨⟨specMetaOf st.animationMap s, ?_, ?_⟩, by decide⟩
  · rw [tagStyles_single_snd, tagStylesSingle_metaMap, hdyn, if_pos rfl,
      alookup_aset_self]
  · have hguard : animGuard st.animationMap s = animationsRequireLayout st.animationMap a := by
      simp [animGuard, ha]
    simp only [specMetaOf, hrl, Bool.or_false, hguard]
    by_cases hb : animationsRequireLayout st.animationMap a = true
    · simp only [hb, if_true]
      exact Iff.intro (fun _ => (animationsRequireLayout_iff _ a).mp hb)
        (fun _ => trivial)
    · have hb' : animationsRequireLayout st.animationMap a = false :=
        Bool.not_eq_true _ ▸ by simpa using hb
      simp only [hb']
      constructor
      · intro hcontra
        exact absurd hcontra (by simp)
      · intro hex
        exact absurd ((animationsRequireLayout_iff _ a).mpr hex) hb

/-- Witness for C4 at the spin example itself. -/
theorem C4_witness :
    ∃ m,
      alookup (tagStyles false "sp" (.single spinStyle) spinState).2.styleMetaMap
          spinStyle.style = some m ∧
      (m.requiresLayout = some true ↔
        ∃ r ∈ ({ name := some [{ type := "custom", value := "spin" }] } :
            AnimationsDescriptor).name.getD [], ∃ kf,
          alookup spinState.animationMap (animNameKey r) = some kf ∧
            kf.requiresLayout = true) :=
  (C4_animation_requires_layout false "sp" spinStyle spinState
    { name := some [{ type := "custom", value := "spin" }] } rfl rfl).1

/-- C7: tagging preserves the identity of every leaf renderable style value
— a single descriptor returns its own underlying style value, and an array
returns exactly the sequence of its elements' underlying style values, in
order (only out-of-band metadata is attached). -/
theorem C7_identity_preserved (dev : Bool) (name : String)
    (s : ExtractedStyle) (xs : List ExtractedStyle) (st st' : SSState) :
    (tagStyles dev name (.single s) st).1 = TaggedProp.single s.style ∧
    ∃ sent, (tagStyles dev name (.arr xs) st').1 =
      TaggedProp.arr (xs.map ExtractedStyle.style) sent := by
  refine ⟨rfl, ⟨if (tagStylesArr dev name xs st').didTag then some {} else none, ?_⟩⟩
  rw [tagStyles_arr_fst, tagStylesArr_ids]

/-- C2: the four variable scopes after `register`, updated in source order
when their option fields are present: default-light becomes the input
`defaultVariables`; default-dark becomes the input `defaultVariables`
overridden by the input `defaultDarkVariables` (the call's input field);
root-light becomes the input `rootVariables` overridden by the current
(possibly just-updated) default-light scope; root-dark becomes input
`rootVariables`, then input `rootDarkVariables`, then the current
default-dark scope, later entries winning.  Plus the spec's worked two-call
example. -/
theorem C2_register_variable_scopes (dev : Bool) (o : RegisterOptions)
    (st : SSState)
    (h1 : keysNodup st.defaultVariables)
    (h2 : keysNodup st.defaultDarkVariables)
    (h3 : keysNodup (o.defaultVariables.getD []))
    (h4 : keysNodup (o.defaultDarkVariables.getD []))
    (h5 : keysNodup (o.rootDarkVariables.getD [])) :
    (∀ dv, o.defaultVariables = some dv →
      (register dev o st).1.defaultVariables = dv) ∧
    (∀ ddv, o.defaultDarkVariables = some ddv → ∀ k,
      alookup (register dev o st).1.defaultDarkVariables k =
        ofirst (alookup ddv k) (alookup (o.defaultVariables.getD []) k)) ∧
    (∀ rv, o.rootVariables = some rv → ∀ k,
      alookup (register dev o st).1.rootVariables k =
        ofirst (alookup (register dev o st).1.defaultVariables k)
          (alookup rv k)) ∧
    (∀ rdv, o.rootDarkVariables = some rdv → ∀ k,
      alookup (register dev o st).1.rootDarkVariables k =
        ofirst (alookup (register dev o st).1.defaultDarkVariables k)
          (ofirst (alookup rdv k) (alookup (o.rootVariables.getD []) k))) ∧
    ((registerAll false {} [regEx1, regEx2]).defaultDarkVariables =
        [("a", 1), ("b", 2)] ∧
      (registerAll false {} [regEx1, regEx2]).rootVariables =
        [("c", 3), ("a", 1)]) := by
  obtain ⟨e1, e2, e3, e4⟩ := register_scopes dev o st
  refine ⟨?_, ?_, ?_, ?_, by decide⟩
  · intro dv hdv
    rw [e1, hdv, Option.getD_some]
  · intro ddv hddv k
    rw [e2, hddv]
    have h4' : keysNodup ddv := by rw [hddv] at h4; exact h4
    exact alookup_spread2 _ ddv h4' k
  · intro rv hrv k
    rw [e3, hrv, e1]
    have hD : keysNodup (o.defaultVariables.getD st.defaultVariables) := by
      cases hdv : o.defaultVariables with
      | none => simpa [hdv] using h1
      | some dv => rw [hdv] at h3; exact h3
    exact alookup_spread2 rv _ hD k
  · intro rdv hrdv k
    rw [e4, hrdv, e2]
    have hDD : keysNodup
        (match o.defaultDarkVariables with
          | some ddv => spread2 (o.defaultVariables.getD []) ddv
          | none => st.defaultDarkVariables) := by
      cases hddv : o.defaultDarkVariables with
      | none => exact h2
      | some ddv => exact keysNodup_spread2 _ ddv h3
    have h5' : keysNodup rdv := by rw [hrdv] at h5; exact h5
    rw [alookup_spread2 _ _ hDD k, alookup_spread2 _ rdv h5' k]

/-- Witness for C2: the first call of the worked example sets the
default-light scope to its input `defaultVariables`. -/
theorem C2_witness :
    (register false regEx1 ({} : SSState)).1.defaultVariables = [("a", 1)] :=
  (C2_register_variable_scopes false regEx1 {} (by decide) (by decide)
      (by decide) (by decide) (by decide)).1 [("a", 1)] rfl

/-- C5: variable resolution.  At the root sentinel (no ancestor scope) it
returns the root-light scope under the light appearance and the root-dark
scope otherwise; with an inherited scope it merges it with the default
scope of the appearance, the default scope winning on key collision; and
`resolveVariables("none", "dark")` is exactly the root-dark scope after any
sequence of registrations. -/
theorem C5_use_variables (st : SSState) (inh : Vars) (scheme : String)
    (h1 : keysNodup st.defaultVariables)
    (h2 : keysNodup st.defaultDarkVariables) :
    useVariables st none "light" = st.rootVariables ∧
    (scheme ≠ "light" → useVariables st none scheme = st.rootDarkVariables) ∧
    (∀ k, alookup (useVariables st (some inh) "light") k =
      ofirst (alookup st.defaultVariables k) (alookup inh k)) ∧
    (scheme ≠ "light" → ∀ k,
      alookup (useVariables st (some inh) scheme) k =
        ofirst (alookup st.defaultDarkVariables k) (alookup inh k)) ∧
    (∀ dev os, useVariables (registerAll dev st os) none "dark" =
      (registerAll dev st os).rootDarkVariables) := by
  refine ⟨by simp [useVariables], ?_, ?_, ?_, ?_⟩
  · intro h
    simp [useVariables, h]
  · intro k
    have hu : useVariables st (some inh) "light" = spread2 inh st.defaultVariables := by
      simp [useVariables]
    rw [hu]
    exact alookup_spread2 inh st.defaultVariables h1 k
  · intro h k
    have hu : useVariables st (some inh) scheme = spread2 inh st.defaultDarkVariables := by
      simp [useVariables, h]
    rw [hu]
    exact alookup_spread2 inh st.defaultDarkVariables h2 k
  · intro dev os
    simp [useVariables]

/-- Witness for C5 at concrete inputs (empty state, empty inherited scope,
dark appearance). -/
theorem C5_witness :
    useVariables ({} : SSState) none "light" = ({} : SSState).rootVariables ∧
    ("dark" ≠ "light" →
      useVariables ({} : SSState) none "dark" = ({} : SSState).rootDarkVariables) ∧
    (∀ k, alookup (useVariables ({} : SSState) (some []) "light") k =
      ofirst (alookup ({} : SSState).defaultVariables k) (alookup [] k)) ∧
    ("dark" ≠ "light" → ∀ k,
      alookup (useVariables ({} : SSState) (some []) "dark") k =
        ofirst (alookup ({} : SSState).defaultDarkVariables k) (alookup [] k)) ∧
    (∀ dev os, useVariables (registerAll dev ({} : SSState) os) none "dark" =
      (registerAll dev ({} : SSState) os).rootDarkVariables) :=
  C5_use_variables {} [] "dark" (by decide) (by decide)

/-- C6 counterexample: the claim says reset clears "the metadata side
table", but `__reset` (stylesheet.ts lines 46-59) never clears
`styleMetaMap` — after `create` tags one dynamic style, the side table is
still non-empty after reset. -/
theorem C6_counterexample :
    (resetSS ⟨380, 640⟩ "light" none none
        (create false [("box", dynStyle)] {}).2.1).styleMetaMap ≠ [] := by
  decide

/-- C6 (amended): reset clears the named-style map, animation map,
warnings, warning-dedup tracking, and all four variable scopes, and
reinitializes the unit trackers and color-scheme tracker from the given or
default environment sources, so any subsequent read of the named-style map,
animation map, or variable scopes yields empty results; the metadata side
table (and the subscriber set) are left untouched. -/
theorem C6_reset_clears (pd : DimensionsSource) (ps : String)
    (dims : Option DimensionsSource) (app : Option String) (st : SSState) :
    (resetSS pd ps dims app st).globalStyles = [] ∧
    (resetSS pd ps dims app st).animationMap = [] ∧
    (resetSS pd ps dims app st).warnings = [] ∧
    (resetSS pd ps dims app st).warned = [] ∧
    (resetSS pd ps dims app st).rootVariables = [] ∧
    (resetSS pd ps dims app st).rootDarkVariables = [] ∧
    (resetSS pd ps dims app st).defaultVariables = [] ∧
    (resetSS pd ps dims app st).defaultDarkVariables = [] ∧
    (resetSS pd ps dims app st).vw = (dims.getD pd).width ∧
    (resetSS pd ps dims app st).vh = (dims.getD pd).height ∧
    (resetSS pd ps dims app st).rem = remDefault ∧
    (resetSS pd ps dims app st).colorScheme = app.getD ps ∧
    (resetSS pd ps dims app st).styleMetaMap = st.styleMetaMap ∧
    (resetSS pd ps dims app st).subscriptions = st.subscriptions ∧
    (∀ n, alookup (resetSS pd ps dims app st).globalStyles n = none) ∧
    (∀ n, alookup (resetSS pd ps dims app st).animationMap n = none) :=
  ⟨rfl, rfl, rfl, rfl, rfl, rfl, rfl, rfl, rfl, rfl, rfl, rfl, rfl, rfl,
    fun _ => rfl, fun _ => rfl⟩

/-- C8: `create` tags each descriptor and returns the mapping of names to
tagged renderable values, broadcasts to the current subscribers at the end,
and leaves the named-style map, the animation map, all four variable
scopes, the warning-dedup tracking, the unit/appearance trackers and the
subscriber set unchanged; in production builds (`dev = false`) the warnings
registry is also untouched, so its only registry writes are the metadata
side table and, in non-production builds, the warnings registry. -/
theorem C8_create_effects (dev : Bool)
    (styles : List (String × ExtractedStyle)) (st : SSState)
    (hn : keysNodup styles) :
    (create dev styles st).1 =
      styles.map (fun p => (p.1, TaggedProp.single p.2.style)) ∧
    (create dev styles st).2.2 = st.subscriptions ∧
    (create dev styles st).2.1.globalStyles = st.globalStyles ∧
    (create dev styles st).2.1.animationMap = st.animationMap ∧
    (create dev styles st).2.1.warned = st.warned ∧
    (create dev styles st).2.1.rootVariables = st.rootVariables ∧
    (create dev styles st).2.1.rootDarkVariables = st.rootDarkVariables ∧
    (create dev styles st).2.1.defaultVariables = st.defaultVariables ∧
    (create dev styles st).2.1.defaultDarkVariables = st.defaultDarkVariables ∧
    (create dev styles st).2.1.vw = st.vw ∧
    (create dev styles st).2.1.vh = st.vh ∧
    (create dev styles st).2.1.rem = st.rem ∧
    (create dev styles st).2.1.colorScheme = st.colorScheme ∧
    (create dev styles st).2.1.subscriptions = st.subscriptions ∧
    (dev = false → (create dev styles st).2.1.warnings = st.warnings) := by
  have hb := createFold_base dev styles [] st
  have hres := createFold_result dev styles [] st (by simp) hn
  have hgs := createFold_globalStyles dev styles [] st
  refine ⟨?_, (create_subs dev styles st).2, ?_, ?_, ?_, ?_, ?_, ?_, ?_, ?_,
    ?_, ?_, ?_, (create_subs dev styles st).1, ?_⟩
  · rw [create_eq_createFold]
    dsimp only
    rw [hres, List.nil_append]
  · rw [create_eq_createFold]
    exact hgs
  · rw [create_eq_createFold]
    exact hb.1
  · rw [create_eq_createFold]
    exact hb.2.1
  · rw [create_eq_createFold]
    exact hb.2.2.1
  · rw [create_eq_createFold]
    exact hb.2.2.2.1
  · rw [create_eq_createFold]
    exact hb.2.2.2.2.1
  · rw [create_eq_createFold]
    exact hb.2.2.2.2.2.1
  · rw [create_eq_createFold]
    exact hb.2.2.2.2.2.2.1
  · rw [create_eq_createFold]
    exact hb.2.2.2.2.2.2.2.1
  · rw [create_eq_createFold]
    exact hb.2.2.2.2.2.2.2.2.1
  · rw [create_eq_createFold]
    exact hb.2.2.2.2.2.2.2.2.2.1
  · intro hdev
    subst hdev
    rw [create_eq_createFold]
    exact createFold_warnings_of_prod styles [] st

/-- Witness for C8 at a concrete input (one dynamic style, production
build): the returned mapping and the untouched warnings registry. -/
theorem C8_witness :
    (create false [("box", dynStyle)] ({} : SSState)).1 =
      [("box", TaggedProp.single dynStyle.style)] ∧
    (create false [("box", dynStyle)] ({} : SSState)).2.1.warnings =
      ({} : SSState).warnings :=
  ⟨(C8_create_effects false [("box", dynStyle)] {} (by decide)).1,
   (C8_create_effects false [("box", dynStyle)] {}
      (by decide)).2.2.2.2.2.2.2.2.2.2.2.2.2.2 rfl⟩

/-- C9: unsubscribing guarantees the callback is never invoked by any
subsequent broadcast from `register` or `create` (neither of which touches
the subscriber set), and invoking the unsubscribe closure a second time is
a no-op. -/
theorem C9_unsubscribe_guarantee (dev : Bool) (c : Nat) (st : SSState)
    (ops : List Op) :
    (∀ l ∈ (runOps dev (unsubscribe c (subscribe c st)) ops).2, c ∉ l) ∧
    unsubscribe c (unsubscribe c (subscribe c st)) =
      unsubscribe c (subscribe c st) := by
  constructor
  · intro l hl
    have hsub := (runOps_subs dev (unsubscribe c (subscribe c st)) ops).2 l hl
    rw [hsub]
    exact not_mem_subsDelete_self _ c
  · simp [unsubscribe, subsDelete_idem]

/-- C10 counterexample: the subscriber set is a JS `Set` keyed by function
identity, so subscribing the same callback function twice deduplicates —
after removing "one of the two subscriptions", the next broadcast invokes
nobody, contradicting the claim that the consumer is still invoked. -/
theorem C10_counterexample :
    (0 : Nat) ∉
      (register false {}
        (unsubscribe 0 (subscribe 0 (subscribe 0 ({} : SSState))))).2 := by
  decide

/-- C10 (amended): subscriptions made with distinct callback functions are
independent and independently removable — after removing one, the other
callback is still invoked by subsequent broadcasts until it too is removed;
but subscribing the identical callback function twice deduplicates (the
subscriber set is keyed by function identity): the second subscribe is a
no-op, and a single unsubscribe removes that callback entirely. -/
theorem C10_independent_subscriptions (c1 c2 : Nat) (st : SSState)
    (dev : Bool) (o : RegisterOptions) (h : c1 ≠ c2) :
    c2 ∈ (register dev o (unsubscribe c1 (subscribe c2 (subscribe c1 st)))).2 ∧
    c1 ∉ (register dev o (unsubscribe c1 (subscribe c2 (subscribe c1 st)))).2 ∧
    c2 ∉ (register dev o
      (unsubscribe c2 (unsubscribe c1 (subscribe c2 (subscribe c1 st))))).2 ∧
    subscribe c1 (subscribe c1 st) = subscribe c1 st := by
  have hr1 := (register_subs dev o
    (unsubscribe c1 (subscribe c2 (subscribe c1 st)))).2
  have hr2 := (register_subs dev o
    (unsubscribe c2 (unsubscribe c1 (subscribe c2 (subscribe c1 st))))).2
  refine ⟨?_, ?_, ?_, by simp [subscribe, subsAdd_idem]⟩
  · rw [hr1]
    show c2 ∈ subsDelete (subsAdd (subsAdd st.subscriptions c1) c2) c1
    rw [mem_subsDelete]
    exact ⟨mem_subsAdd_self _ c2, fun hh => h hh.symm⟩
  · rw [hr1]
    exact not_mem_subsDelete_self _ c1
  · rw [hr2]
    exact not_mem_subsDelete_self _ c2

/-- Witness for C10 (amended) at concrete distinct callbacks. -/
theorem C10_witness :
    (1 : Nat) ∈ (register false {}
      (unsubscribe 0 (subscribe 1 (subscribe 0 ({} : SSState))))).2 ∧
    (0 : Nat) ∉ (register false {}
      (unsubscribe 0 (subscribe 1 (subscribe 0 ({} : SSState))))).2 ∧
    (1 : Nat) ∉ (register false {}
      (unsubscribe 1 (unsubscribe 0 (subscribe 1 (subscribe 0 ({} : SSState)))))).2 ∧
    subscribe 0 (subscribe 0 ({} : SSState)) = subscribe 0 ({} : SSState) :=
  C10_independent_subscriptions 0 1 {} false {} (by decide)

end Nativewind
